import Mathlib

/-!
Shallow embedding of the meal-planner aggregation engine
(`addons/meal_planner_api/app/calculations.py`) and proofs of the
specified properties.

Modelling conventions:
- A calendar date is a `Nat` counting days in the proleptic Gregorian
  calendar shifted so that day `0` is a Monday (Python's
  `date.toordinal()` minus 1; `date(1,1,1)` is a Monday and
  `date.weekday()` of day `d` is `d % 7`, with Monday = 0).
- Python `float` values (quantities, costs, nutrition) are modelled as
  exact rationals `ℚ`; Python's `round(x, 2)` is modelled as exact
  round-half-to-even at two decimal places (`pyRound2`).
- A SQLAlchemy query result is a `List` of rows in storage order; a
  Python `dict`/`defaultdict` keyed in insertion order is an
  association list with unique keys updated in place.
- Python truthiness on a nullable integer foreign key (`if not
  meal.recipe_id`) is `truthyId`: both `None` and `0` are falsy.
  Truthiness on an optional string (`if not person_name`) is
  `truthyName`: both `None` and `""` are falsy.
-/

/-- Exact round-half-to-even of a rational to an integer, the semantics of
Python's built-in `round` at the integer level. -/
def roundHalfEven (x : ℚ) : ℤ :=
  let f : ℤ := ⌊x⌋
  let r : ℚ := x - f
  if r < 1/2 then f
  else if 1/2 < r then f + 1
  else if f % 2 = 0 then f else f + 1

/-- Python's `round(x, 2)`: round-half-to-even at two decimal places. -/
def pyRound2 (x : ℚ) : ℚ :=
  (roundHalfEven (x * 100) : ℚ) / 100

/-! ### Data model (from `database.py`) -/

/-- Row of the `people` table. -/
structure Person where
  id : Nat
  name : String
deriving DecidableEq

/-- Row of the `ingredients` table (engine-relevant columns). -/
structure Ingredient where
  id : Nat
  name : String
  unit : String
  cost_per_unit : ℚ
  kcal_per_unit : ℚ
  protein_per_unit : ℚ
  carbs_per_unit : ℚ
  fat_per_unit : ℚ
deriving DecidableEq

/-- Row of the `recipes` table (engine-relevant columns). -/
structure Recipe where
  id : Nat
  name : String
  meal_type : String
deriving DecidableEq

/-- Row of the `recipe_portions` table. -/
structure RecipePortion where
  recipe_id : Nat
  ingredient_id : Nat
  person_id : Nat
  quantity : ℚ
deriving DecidableEq

/-- Row of the `week_plan` table; `recipe_id` is nullable. -/
structure WeekPlan where
  date : Nat
  person_id : Nat
  meal_type : String
  recipe_id : Option Nat
deriving DecidableEq

/-- Row of the `snacks` table. -/
structure Snack where
  id : Nat
  ingredient_id : Nat
  default_quantity : ℚ
deriving DecidableEq

/-- Row of the `snack_log` table. -/
structure SnackLog where
  date : Nat
  person_id : Nat
  snack_id : Nat
  consumed : Bool
deriving DecidableEq

/-- A database snapshot: the six tables the engine reads, in storage order. -/
structure DB where
  people : List Person
  ingredients : List Ingredient
  recipes : List Recipe
  portions : List RecipePortion
  week_plan : List WeekPlan
  snacks : List Snack
  snack_log : List SnackLog

/-- Python truthiness of a nullable integer key: `None` and `0` are falsy. -/
def truthyId : Option Nat → Bool
  | none => false
  | some n => n != 0

/-- Python truthiness of an optional string: `None` and `""` are falsy. -/
def truthyName : Option String → Bool
  | none => false
  | some s => s != ""

/-- Model of the dict `person_map` mapping each person id to its name,
built from `db.query(Person).all()`: a later row with the same id overwrites an earlier one, so lookup takes
the last matching row. -/
def personName (db : DB) (pid : Nat) : Option String :=
  (db.people.reverse.find? (fun p => p.id == pid)).map (·.name)

/-- Model of `db.query(Ingredient).filter(Ingredient.id == iid).first()`. -/
def ingredientById (db : DB) (iid : Nat) : Option Ingredient :=
  db.ingredients.find? (fun i => i.id == iid)

/-- Model of `db.query(Snack).filter(Snack.id == sid).first()`. -/
def snackById (db : DB) (sid : Nat) : Option Snack :=
  db.snacks.find? (fun s => s.id == sid)

/-- Model of `db.query(RecipePortion).filter(recipe_id, person_id)`. -/
def portionsFor (db : DB) (rid pid : Nat) : List RecipePortion :=
  db.portions.filter (fun rp => rp.recipe_id == rid && rp.person_id == pid)

/-- Model of `db.query(WeekPlan).filter(WeekPlan.date == d).all()`. -/
def mealsOn (db : DB) (d : Nat) : List WeekPlan :=
  db.week_plan.filter (fun m => m.date == d)

/-- Model of the query for consumed snack-log entries on date `d`. -/
def snackEntriesOn (db : DB) (d : Nat) : List SnackLog :=
  db.snack_log.filter (fun s => s.date == d && s.consumed)

/-! ### Helper functions (`calculations.py` lines 20-50) -/

/-- Python's `date.weekday()`: 0 = Monday, ..., 6 = Sunday. -/
def weekday (d : Nat) : Nat := d % 7

/-- Source `get_day_name`: convert a date to "mon", "tue", ..., "sun". -/
def get_day_name (d : Nat) : String :=
  ["mon", "tue", "wed", "thu", "fri", "sat", "sun"].getD (weekday d) ""

/-- Source `is_wed_batch`: does (date, meal_type) belong to the Wednesday batch
cook (Wed dinner through Sun lunch inclusive)? -/
def is_wed_batch (meal_date : Nat) (meal_type : String) : Bool :=
  let day_name := get_day_name meal_date
  if day_name == "wed" && meal_type == "dinner" then true
  else if day_name == "thu" || day_name == "fri" || day_name == "sat" then true
  else if day_name == "sun" && (meal_type == "breakfast" || meal_type == "lunch") then true
  else false

/-! ### Daily totals (`calculate_daily_totals`) -/

/-- The four per-person nutrient accumulators. -/
structure Totals where
  kcal : ℚ
  protein : ℚ
  carbs : ℚ
  fat : ℚ
deriving DecidableEq

/-- The `defaultdict` zero entry. -/
def Totals.zero : Totals := ⟨0, 0, 0, 0⟩

/-- Component-wise addition of nutrient records. -/
def Totals.add (a b : Totals) : Totals :=
  ⟨a.kcal + b.kcal, a.protein + b.protein, a.carbs + b.carbs, a.fat + b.fat⟩

/-- Nutrition contributed by `qty` units of `ing`
(`ingredient.x_per_unit * qty` for the four nutrients). -/
def ingTotals (ing : Ingredient) (qty : ℚ) : Totals :=
  ⟨ing.kcal_per_unit * qty, ing.protein_per_unit * qty,
   ing.carbs_per_unit * qty, ing.fat_per_unit * qty⟩

/-- Model of `d[k] += v` on a Python `defaultdict`, as an association
list in insertion order: update the existing entry in place, or append a
fresh entry (zero plus `v`) at the end. -/
def dictUpd {κ β : Type} [BEq κ] (zero : β) (add : β → β → β)
    (l : List (κ × β)) (k : κ) (v : β) : List (κ × β) :=
  if l.any (fun p => p.1 == k) then
    l.map (fun p => if p.1 == k then (p.1, add p.2 v) else p)
  else l ++ [(k, add zero v)]

/-- Model of `d[k]` on a `defaultdict`, with the default for an absent key. -/
def dictGet {κ β : Type} [BEq κ] (zero : β) (l : List (κ × β)) (k : κ) : β :=
  ((l.find? (fun p => p.1 == k)).map (·.2)).getD zero

/-- Body of the per-portion loop of the totals traversal: skip an
unresolvable ingredient, else add its nutrition to `pname`. -/
def addPortionTotals (db : DB) (pname : String) (a : List (String × Totals))
    (portion : RecipePortion) : List (String × Totals) :=
  match ingredientById db portion.ingredient_id with
  | none => a
  | some ing =>
    dictUpd Totals.zero Totals.add a pname (ingTotals ing portion.quantity)

/-- Body of the week-plan loop of `calculate_daily_totals`: skip a falsy
`recipe_id`, skip an unresolvable/falsy person name, then add every
resolvable portion's nutrition to that person's accumulators. -/
def addMealTotals (db : DB) (acc : List (String × Totals)) (meal : WeekPlan) :
    List (String × Totals) :=
  match meal.recipe_id with
  | none => acc
  | some rid =>
    if rid == 0 then acc
    else
      match personName db meal.person_id with
      | none => acc
      | some pname =>
        if pname == "" then acc
        else
          (portionsFor db rid meal.person_id).foldl (addPortionTotals db pname) acc

/-- Body of the snack-log loop of `calculate_daily_totals`. -/
def addSnackTotals (db : DB) (acc : List (String × Totals)) (entry : SnackLog) :
    List (String × Totals) :=
  match personName db entry.person_id with
  | none => acc
  | some pname =>
    if pname == "" then acc
    else
      match snackById db entry.snack_id with
      | none => acc
      | some snack =>
        match ingredientById db snack.ingredient_id with
        | none => acc
        | some ing =>
          dictUpd Totals.zero Totals.add acc pname (ingTotals ing snack.default_quantity)

/-- Source `calculate_daily_totals`: per-person nutrition totals for one day. -/
def calculate_daily_totals (db : DB) (target_date : Nat) :
    List (String × Totals) :=
  let acc1 := (mealsOn db target_date).foldl (addMealTotals db) []
  (snackEntriesOn db target_date).foldl (addSnackTotals db) acc1

/-- Body of the per-day loop of `calculate_weekly_totals`: fold one day's
result dict into the weekly accumulators. -/
def addDayTotals (acc : List (String × Totals)) (day : List (String × Totals)) :
    List (String × Totals) :=
  day.foldl (fun a p => dictUpd Totals.zero Totals.add a p.1 p.2) acc

/-- Source `calculate_weekly_totals`: per-person totals over the 7 days from
`week_start`. -/
def calculate_weekly_totals (db : DB) (week_start : Nat) :
    List (String × Totals) :=
  (List.range 7).foldl
    (fun acc i => addDayTotals acc (calculate_daily_totals db (week_start + i))) []

/-! ### Cost calculation (`calculate_daily_cost`, `calculate_weekly_cost`) -/

/-- Body of the per-portion loop of the cost traversal. -/
def addPortionCost (db : DB) (a : ℚ) (portion : RecipePortion) : ℚ :=
  match ingredientById db portion.ingredient_id with
  | none => a
  | some ing => a + ing.cost_per_unit * portion.quantity

/-- Body of the week-plan loop of `calculate_daily_cost`: note that,
unlike `calculate_daily_totals`, no person lookup is performed. -/
def mealCostFold (db : DB) (acc : ℚ) (meal : WeekPlan) : ℚ :=
  match meal.recipe_id with
  | none => acc
  | some rid =>
    if rid == 0 then acc
    else
      (portionsFor db rid meal.person_id).foldl (addPortionCost db) acc

/-- Body of the snack-log loop of `calculate_daily_cost`: again no person
lookup. -/
def snackCostFold (db : DB) (acc : ℚ) (entry : SnackLog) : ℚ :=
  match snackById db entry.snack_id with
  | none => acc
  | some snack =>
    match ingredientById db snack.ingredient_id with
    | none => acc
    | some ing => acc + ing.cost_per_unit * snack.default_quantity

/-- Source `calculate_daily_cost`: total cost of a day's meals and consumed
snacks, rounded to 2 decimals at the end. -/
def calculate_daily_cost (db : DB) (target_date : Nat) : ℚ :=
  let c1 := (mealsOn db target_date).foldl (mealCostFold db) 0
  pyRound2 ((snackEntriesOn db target_date).foldl (snackCostFold db) c1)

/-- Source `calculate_weekly_cost`: sum of the seven rounded daily costs,
rounded again. -/
def calculate_weekly_cost (db : DB) (week_start : Nat) : ℚ :=
  pyRound2 ((List.range 7).foldl
    (fun acc i => acc + calculate_daily_cost db (week_start + i)) 0)

/-! ### Shopping list (`generate_shopping_list`) -/

/-- Lexicographic comparison of code-point sequences, the order Python
uses to compare strings. -/
def codeLe : List Nat → List Nat → Bool
  | [], _ => true
  | _ :: _, [] => false
  | a :: as, b :: bs => if a < b then true else if b < a then false else codeLe as bs

/-- Python's string `<=`: lexicographic by code point. -/
def strLe (a b : String) : Bool :=
  codeLe (a.data.map Char.toNat) (b.data.map Char.toNat)

/-- One row of the shopping list. -/
structure ShoppingRow where
  ingredient : String
  quantity : ℚ
  unit : String
  cost : ℚ
deriving DecidableEq

/-- Body of the per-meal loop of `generate_shopping_list`: skip a falsy
`recipe_id`, skip meals outside the requested batch, then accumulate
every portion's quantity under its ingredient id. -/
def shoppingAccMeal (db : DB) (batch : String) (day_date : Nat)
    (acc : List (Nat × ℚ)) (meal : WeekPlan) : List (Nat × ℚ) :=
  match meal.recipe_id with
  | none => acc
  | some rid =>
    if rid == 0 then acc
    else if batch == "wed" && !is_wed_batch day_date meal.meal_type then acc
    else if !(batch == "wed") && is_wed_batch day_date meal.meal_type then acc
    else
      (portionsFor db rid meal.person_id).foldl
        (fun a portion =>
          dictUpd (0 : ℚ) (· + ·) a portion.ingredient_id portion.quantity) acc

/-- The consolidated `ingredient_totals` accumulator after the 7-day scan. -/
def shoppingAcc (db : DB) (week_start : Nat) (batch : String) :
    List (Nat × ℚ) :=
  (List.range 7).foldl (fun acc i =>
    (mealsOn db (week_start + i)).foldl
      (shoppingAccMeal db batch (week_start + i)) acc) []

/-- Emission of one accumulator entry: cost, gram-to-kilogram display
promotion, rounding to 2 decimals. -/
def mkRow (ing : Ingredient) (total_qty : ℚ) : ShoppingRow :=
  if ing.unit == "g" && decide (total_qty ≥ 1000) then
    ⟨ing.name, pyRound2 (total_qty / 1000), "kg", pyRound2 (ing.cost_per_unit * total_qty)⟩
  else
    ⟨ing.name, pyRound2 total_qty, ing.unit, pyRound2 (ing.cost_per_unit * total_qty)⟩

/-- The unsorted shopping list: one row per accumulator entry whose
ingredient resolves, in accumulator (insertion) order. -/
def shoppingRows (db : DB) (week_start : Nat) (batch : String) :
    List ShoppingRow :=
  (shoppingAcc db week_start batch).filterMap (fun p =>
    (ingredientById db p.1).map (fun ing => mkRow ing p.2))

/-- Source `generate_shopping_list`: the rows sorted (stably) by ingredient name. -/
def generate_shopping_list (db : DB) (week_start : Nat) (batch : String) :
    List ShoppingRow :=
  (shoppingRows db week_start batch).mergeSort
    (fun a b => strLe a.ingredient b.ingredient)

/-! ### Specification-side closed forms

These re-express the imperative accumulations above as closed sums, for
stating the properties; the theorems below connect them to the engine
definitions. -/

/-- Cost contributed by a single portion: zero if its ingredient does not
resolve, else `cost_per_unit * quantity`. -/
def portionCost (db : DB) (p : RecipePortion) : ℚ :=
  match ingredientById db p.ingredient_id with
  | none => 0
  | some ing => ing.cost_per_unit * p.quantity

/-- Cost contributed by one week-plan entry in `calculate_daily_cost`
(no person resolution). -/
def mealCost (db : DB) (meal : WeekPlan) : ℚ :=
  match meal.recipe_id with
  | none => 0
  | some rid =>
    if rid == 0 then 0
    else ((portionsFor db rid meal.person_id).map (portionCost db)).sum

/-- Cost contributed by one snack-log entry in `calculate_daily_cost`
(no person resolution). -/
def snackCost (db : DB) (entry : SnackLog) : ℚ :=
  match snackById db entry.snack_id with
  | none => 0
  | some snack =>
    match ingredientById db snack.ingredient_id with
    | none => 0
    | some ing => ing.cost_per_unit * snack.default_quantity

/-- The unrounded daily cost: a plain sum with no rounding anywhere. -/
def rawDailyCost (db : DB) (d : Nat) : ℚ :=
  ((mealsOn db d).map (mealCost db)).sum
    + ((snackEntriesOn db d).map (snackCost db)).sum

/-- Cost of one week-plan entry under the traversal discipline of
`calculate_daily_totals`, i.e. with the person-resolution check that
`calculate_daily_cost` itself does not perform. -/
def mealCostChecked (db : DB) (meal : WeekPlan) : ℚ :=
  match meal.recipe_id with
  | none => 0
  | some rid =>
    if rid == 0 then 0
    else
      match personName db meal.person_id with
      | none => 0
      | some pname =>
        if pname == "" then 0
        else ((portionsFor db rid meal.person_id).map (portionCost db)).sum

/-- Cost of one snack-log entry under the totals traversal discipline
(person check included). -/
def snackCostChecked (db : DB) (entry : SnackLog) : ℚ :=
  match personName db entry.person_id with
  | none => 0
  | some pname =>
    if pname == "" then 0
    else snackCost db entry

/-- The daily cost as the totals traversal would accumulate it:
same skip rules as `calculate_daily_totals`, summed over all persons. -/
def dailyCostTotalsStyle (db : DB) (d : Nat) : ℚ :=
  ((mealsOn db d).map (mealCostChecked db)).sum
    + ((snackEntriesOn db d).map (snackCostChecked db)).sum

/-- Quantity of ingredient `iid` contributed by one week-plan entry to
the shopping accumulation for `batch`. -/
def mealQty (db : DB) (batch : String) (day_date : Nat) (meal : WeekPlan)
    (iid : Nat) : ℚ :=
  match meal.recipe_id with
  | none => 0
  | some rid =>
    if rid == 0 then 0
    else if batch == "wed" && !is_wed_batch day_date meal.meal_type then 0
    else if !(batch == "wed") && is_wed_batch day_date meal.meal_type then 0
    else
      (((portionsFor db rid meal.person_id).filter
        (fun p => p.ingredient_id == iid)).map (·.quantity)).sum

/-- Total accumulated quantity of ingredient `iid` over the requested
window: summed across all days, meals and people. -/
def accQtySpec (db : DB) (week_start : Nat) (batch : String) (iid : Nat) : ℚ :=
  ((List.range 7).map (fun i =>
    ((mealsOn db (week_start + i)).map
      (fun meal => mealQty db batch (week_start + i) meal iid)).sum)).sum

/-- Does one week-plan entry put ingredient `iid` into the accumulator
for `batch` (regardless of the quantity's value)? -/
def mealTouches (db : DB) (batch : String) (day_date : Nat) (meal : WeekPlan)
    (iid : Nat) : Bool :=
  match meal.recipe_id with
  | none => false
  | some rid =>
    if rid == 0 then false
    else if batch == "wed" && !is_wed_batch day_date meal.meal_type then false
    else if !(batch == "wed") && is_wed_batch day_date meal.meal_type then false
    else (portionsFor db rid meal.person_id).any (fun p => p.ingredient_id == iid)

/-- Is ingredient `iid` referenced by some qualifying portion of the
window at all? -/
def touches (db : DB) (week_start : Nat) (batch : String) (iid : Nat) : Bool :=
  (List.range 7).any (fun i =>
    (mealsOn db (week_start + i)).any
      (fun meal => mealTouches db batch (week_start + i) meal iid))

/-- Prepend a week-plan row to a snapshot (all other tables unchanged). -/
def prependPlan (db : DB) (e : WeekPlan) : DB :=
  ⟨db.people, db.ingredients, db.recipes, db.portions, e :: db.week_plan,
   db.snacks, db.snack_log⟩

/-- Prepend a recipe-portion row to a snapshot. -/
def prependPortion (db : DB) (p : RecipePortion) : DB :=
  ⟨db.people, db.ingredients, db.recipes, p :: db.portions, db.week_plan,
   db.snacks, db.snack_log⟩

/-- Prepend a snack-log row to a snapshot. -/
def prependSnackLog (db : DB) (e : SnackLog) : DB :=
  ⟨db.people, db.ingredients, db.recipes, db.portions, db.week_plan,
   db.snacks, e :: db.snack_log⟩

/-! ### Generic fold and association-list lemmas -/

theorem foldl_measure_sum {σ α : Type} (A : σ → ℚ) (f : σ → α → σ) (g : α → ℚ)
    (h : ∀ s x, A (f s x) = A s + g x) :
    ∀ (l : List α) (s : σ), A (l.foldl f s) = A s + (l.map g).sum := by
  intro l
  induction l with
  | nil => intro s; simp
  | cons x xs ih =>
    intro s
    simp only [List.foldl_cons, List.map_cons, List.sum_cons]
    rw [ih, h]
    ring

theorem Totals.zero_add' (t : Totals) : Totals.zero.add t = t := by
  cases t; simp [Totals.zero, Totals.add]

theorem Totals.add_zero' (t : Totals) : t.add Totals.zero = t := by
  cases t; simp [Totals.zero, Totals.add]

theorem Totals.add_assoc' (a b c : Totals) :
    (a.add b).add c = a.add (b.add c) := by
  cases a; cases b; cases c; simp [Totals.add]; ring_nf; exact ⟨trivial, trivial, trivial, trivial⟩

theorem foldl_measure_totals {σ α : Type} (A : σ → Totals) (f : σ → α → σ)
    (g : α → Totals) (h : ∀ s x, A (f s x) = (A s).add (g x)) :
    ∀ (l : List α) (s : σ),
      A (l.foldl f s) = (A s).add ((l.map g).foldr Totals.add Totals.zero) := by
  intro l
  induction l with
  | nil => intro s; simp [Totals.add_zero']
  | cons x xs ih =>
    intro s
    simp only [List.foldl_cons, List.map_cons, List.foldr_cons]
    rw [ih, h, Totals.add_assoc']

theorem foldl_preserve {σ α : Type} (P : σ → Prop) (f : σ → α → σ)
    (h : ∀ s x, P s → P (f s x)) :
    ∀ (l : List α) (s : σ), P s → P (l.foldl f s) := by
  intro l
  induction l with
  | nil => intro s hs; simpa using hs
  | cons x xs ih => intro s hs; exact ih _ (h s x hs)

theorem foldl_mem_iff {σ α : Type} (K : σ → Prop) (f : σ → α → σ) (T : α → Prop)
    (h : ∀ s x, K (f s x) ↔ K s ∨ T x) :
    ∀ (l : List α) (s : σ), K (l.foldl f s) ↔ K s ∨ ∃ x ∈ l, T x := by
  intro l
  induction l with
  | nil => intro s; simp
  | cons x xs ih =>
    intro s
    rw [List.foldl_cons, ih, h]
    constructor
    · rintro ((hk | ht) | ⟨y, hy, hT⟩)
      · exact Or.inl hk
      · exact Or.inr ⟨x, List.mem_cons_self x xs, ht⟩
      · exact Or.inr ⟨y, List.mem_cons_of_mem _ hy, hT⟩
    · rintro (hk | ⟨y, hy, hT⟩)
      · exact Or.inl (Or.inl hk)
      · rcases List.mem_cons.mp hy with rfl | hy
        · exact Or.inl (Or.inr hT)
        · exact Or.inr ⟨y, hy, hT⟩

theorem dictGet_upd {κ β : Type} [BEq κ] [LawfulBEq κ] [DecidableEq κ] (zero : β)
    (add : β → β → β) (l : List (κ × β)) (k : κ) (v : β) (j : κ) :
    dictGet zero (dictUpd zero add l k v) j =
      if j = k then add (dictGet zero l j) v else dictGet zero l j := by
  unfold dictUpd dictGet
  by_cases hany : l.any (fun p => p.1 == k) = true
  · rw [if_pos hany, List.find?_map]
    have hpred : ((fun p : κ × β => p.1 == j) ∘
        (fun p : κ × β => if p.1 == k then (p.1, add p.2 v) else p)) =
        fun p : κ × β => p.1 == j := by
      funext p
      by_cases hp : (p.1 == k) = true <;> simp [Function.comp, hp]
    rw [hpred]
    by_cases hj : j = k
    · subst hj
      rcases List.any_eq_true.mp hany with ⟨p, hp, hpj⟩
      cases hf : l.find? (fun p => p.1 == j) with
      | none =>
        exact absurd (List.find?_eq_none.mp hf p hp) (by simpa using hpj)
      | some q =>
        have hq0 := List.find?_some hf
        have hq : (q.1 == j) = true := hq0
        have hq' : q.1 = j := by simpa using hq
        simp [hf, hq']
    · cases hf : l.find? (fun p => p.1 == j) with
      | none => simp [hf, hj]
      | some q =>
        have hq0 := List.find?_some hf
        have hq : (q.1 == j) = true := hq0
        have hq' : q.1 = j := by simpa using hq
        have hqk : q.1 ≠ k := by simp [hq', hj]
        simp [hf, hqk, hj]
  · rw [if_neg hany, List.find?_append]
    have hany' : l.any (fun p => p.1 == k) = false := by
      cases h : l.any (fun p => p.1 == k) with
      | false => rfl
      | true => exact absurd h hany
    have hnone : l.find? (fun p => p.1 == k) = none :=
      List.find?_eq_none.mpr (fun x hx => List.any_eq_false.mp hany' x hx)
    by_cases hj : j = k
    · subst hj
      simp [hnone]
    · have hk : ((k, add zero v).1 == j) = false := by
        simp only [beq_eq_false_iff_ne, ne_eq]
        exact fun h => hj h.symm
      cases hf : l.find? (fun p => p.1 == j) with
      | none => simp [hf, hk, hj]
      | some q => simp [hf, hj]

theorem keys_upd {κ β : Type} [BEq κ] [LawfulBEq κ] (zero : β)
    (add : β → β → β) (l : List (κ × β)) (k : κ) (v : β) :
    (dictUpd zero add l k v).map Prod.fst =
      if l.any (fun p => p.1 == k) then l.map Prod.fst
      else l.map Prod.fst ++ [k] := by
  unfold dictUpd
  by_cases hany : l.any (fun p => p.1 == k) = true
  · rw [if_pos hany, if_pos hany, List.map_map]
    exact List.map_congr_left
      (fun p _ => by by_cases hp : (p.1 == k) = true <;> simp [Function.comp, hp])
  · rw [if_neg hany, if_neg hany]
    simp

theorem nodup_keys_upd {κ β : Type} [BEq κ] [LawfulBEq κ] (zero : β)
    (add : β → β → β) (l : List (κ × β)) (k : κ) (v : β)
    (h : (l.map Prod.fst).Nodup) :
    ((dictUpd zero add l k v).map Prod.fst).Nodup := by
  rw [keys_upd]
  by_cases hany : l.any (fun p => p.1 == k) = true
  · rw [if_pos hany]; exact h
  · rw [if_neg hany]
    have hany' : l.any (fun p => p.1 == k) = false := by
      cases h : l.any (fun p => p.1 == k) with
      | false => rfl
      | true => exact absurd h hany
    rw [List.nodup_append]
    refine ⟨h, List.nodup_singleton k, ?_⟩
    intro a ha hak
    have hak' : a = k := by simpa using hak
    subst hak'
    rcases List.mem_map.mp ha with ⟨p, hp, hpk⟩
    exact List.any_eq_false.mp hany' p hp (by simp [hpk])

theorem mem_keys_upd {κ β : Type} [BEq κ] [LawfulBEq κ] (zero : β)
    (add : β → β → β) (l : List (κ × β)) (k : κ) (v : β) (j : κ) :
    j ∈ (dictUpd zero add l k v).map Prod.fst ↔
      j ∈ l.map Prod.fst ∨ j = k := by
  rw [keys_upd]
  by_cases hany : l.any (fun p => p.1 == k) = true
  · rw [if_pos hany]
    constructor
    · exact Or.inl
    · rintro (hj | rfl)
      · exact hj
      · rcases List.any_eq_true.mp hany with ⟨p, hp, hpj⟩
        exact List.mem_map.mpr ⟨p, hp, by simpa using hpj⟩
  · rw [if_neg hany]
    simp

theorem dictGet_of_mem {κ β : Type} [BEq κ] [LawfulBEq κ] (zero : β)
    (l : List (κ × β)) (h : (l.map Prod.fst).Nodup) :
    ∀ p ∈ l, dictGet zero l p.1 = p.2 := by
  induction l with
  | nil => simp
  | cons q l ih =>
    intro p hp
    have h' : (q.1 :: l.map Prod.fst).Nodup := by simpa using h
    rcases List.mem_cons.mp hp with rfl | hp
    · unfold dictGet
      have hfind : List.find? (fun r => r.1 == p.1) (p :: l) = some p :=
        List.find?_cons_of_pos l (by simp)
      rw [hfind]
      rfl
    · have hq : q.1 ∉ l.map Prod.fst := (List.nodup_cons.mp h').1
      have hne : ¬((q.1 == p.1) = true) := by
        simp only [beq_iff_eq]
        intro hqp
        exact hq (hqp ▸ List.mem_map.mpr ⟨p, hp, rfl⟩)
      unfold dictGet
      have hfind : List.find? (fun r => r.1 == p.1) (q :: l) =
          List.find? (fun r => r.1 == p.1) l :=
        List.find?_cons_of_neg l hne
      rw [hfind]
      exact ih (List.nodup_cons.mp h').2 p hp

/-! ### Cost accumulation as closed sums -/

theorem portions_cost_fold (db : DB) (l : List RecipePortion) (c : ℚ) :
    l.foldl (addPortionCost db) c = c + (l.map (portionCost db)).sum := by
  refine foldl_measure_sum id _ (portionCost db) ?_ l c
  intro s x
  unfold addPortionCost portionCost
  cases ingredientById db x.ingredient_id <;> simp

theorem mealCostFold_eq (db : DB) (acc : ℚ) (meal : WeekPlan) :
    mealCostFold db acc meal = acc + mealCost db meal := by
  unfold mealCostFold mealCost
  cases meal.recipe_id with
  | none => simp
  | some rid =>
    by_cases hr : (rid == 0) = true
    · simp [hr]
    · simp only [if_neg hr]
      exact portions_cost_fold db _ acc

theorem snackCostFold_eq (db : DB) (acc : ℚ) (entry : SnackLog) :
    snackCostFold db acc entry = acc + snackCost db entry := by
  unfold snackCostFold snackCost
  cases snackById db entry.snack_id with
  | none => simp
  | some snack => cases hi : ingredientById db snack.ingredient_id <;> simp [hi]

theorem calculate_daily_cost_eq (db : DB) (d : Nat) :
    calculate_daily_cost db d = pyRound2 (rawDailyCost db d) := by
  unfold calculate_daily_cost rawDailyCost
  have h1 : (mealsOn db d).foldl (mealCostFold db) 0 =
      0 + ((mealsOn db d).map (mealCost db)).sum :=
    foldl_measure_sum id (mealCostFold db) (mealCost db)
      (fun s x => mealCostFold_eq db s x) _ 0
  have h2 : ∀ c : ℚ, (snackEntriesOn db d).foldl (snackCostFold db) c =
      c + ((snackEntriesOn db d).map (snackCost db)).sum :=
    fun c => foldl_measure_sum id (snackCostFold db) (snackCost db)
      (fun s x => snackCostFold_eq db s x) _ c
  simp only [h1, h2, zero_add]

theorem calculate_weekly_cost_eq (db : DB) (ws : Nat) :
    calculate_weekly_cost db ws =
      pyRound2 (((List.range 7).map
        (fun i => calculate_daily_cost db (ws + i))).sum) := by
  unfold calculate_weekly_cost
  congr 1
  have := foldl_measure_sum id
      (fun acc i => acc + calculate_daily_cost db (ws + i))
      (fun i => calculate_daily_cost db (ws + i))
      (fun s x => rfl) (List.range 7) 0
  simpa using this

theorem mealCost_eq_checked (db : DB) (meal : WeekPlan)
    (h : truthyName (personName db meal.person_id) = true) :
    mealCost db meal = mealCostChecked db meal := by
  unfold mealCost mealCostChecked
  cases meal.recipe_id with
  | none => rfl
  | some rid =>
    by_cases hr : (rid == 0) = true
    · simp [hr]
    · simp only [if_neg hr]
      cases hp : personName db meal.person_id with
      | none => rw [hp] at h; simp [truthyName] at h
      | some pname =>
        rw [hp] at h
        have hne : ¬((pname == "") = true) := by
          simp only [truthyName] at h
          simpa using h
        simp only [if_neg hne]

theorem snackCost_eq_checked (db : DB) (entry : SnackLog)
    (h : truthyName (personName db entry.person_id) = true) :
    snackCost db entry = snackCostChecked db entry := by
  unfold snackCostChecked
  cases hp : personName db entry.person_id with
  | none => rw [hp] at h; simp [truthyName] at h
  | some pname =>
    rw [hp] at h
    have hne : ¬((pname == "") = true) := by
      simp only [truthyName] at h
      simpa using h
    simp only [if_neg hne]

/-! ### Per-person totals: key uniqueness and additivity -/

theorem nodup_keys_addMealTotals (db : DB) (s : List (String × Totals))
    (m : WeekPlan) (h : (s.map Prod.fst).Nodup) :
    ((addMealTotals db s m).map Prod.fst).Nodup := by
  unfold addMealTotals
  cases m.recipe_id with
  | none => exact h
  | some rid =>
    by_cases hr : (rid == 0) = true
    · simp only [if_pos hr]; exact h
    · simp only [if_neg hr]
      cases personName db m.person_id with
      | none => exact h
      | some pname =>
        by_cases hp : (pname == "") = true
        · simp only [if_pos hp]; exact h
        · simp only [if_neg hp]
          refine foldl_preserve (fun a => (a.map Prod.fst).Nodup) _ ?_ _ s h
          intro a x ha
          unfold addPortionTotals
          cases hi : ingredientById db x.ingredient_id with
          | none => simpa [hi] using ha
          | some ing =>
            simp only [hi]
            exact nodup_keys_upd _ _ a pname _ ha

theorem nodup_keys_addSnackTotals (db : DB) (s : List (String × Totals))
    (e : SnackLog) (h : (s.map Prod.fst).Nodup) :
    ((addSnackTotals db s e).map Prod.fst).Nodup := by
  unfold addSnackTotals
  cases personName db e.person_id with
  | none => exact h
  | some pname =>
    by_cases hp : (pname == "") = true
    · simp only [if_pos hp]; exact h
    · simp only [if_neg hp]
      cases hsn : snackById db e.snack_id with
      | none => simp only [hsn]; exact h
      | some snack =>
        simp only [hsn]
        cases hi : ingredientById db snack.ingredient_id with
        | none => simp only [hi]; exact h
        | some ing =>
          simp only [hi]
          exact nodup_keys_upd _ _ s pname _ h

theorem nodup_keys_daily_totals (db : DB) (d : Nat) :
    ((calculate_daily_totals db d).map Prod.fst).Nodup := by
  unfold calculate_daily_totals
  refine foldl_preserve (fun a => (a.map Prod.fst).Nodup) (addSnackTotals db)
    (fun a x ha => nodup_keys_addSnackTotals db a x ha) _ _ ?_
  refine foldl_preserve (fun a => (a.map Prod.fst).Nodup) (addMealTotals db)
    (fun a x ha => nodup_keys_addMealTotals db a x ha) _ _ ?_
  simp

theorem foldr_gather_absent (rest : List (String × Totals)) (s : String)
    (h : s ∉ rest.map Prod.fst) :
    ((rest.map (fun p => if s = p.1 then p.2 else Totals.zero)).foldr
      Totals.add Totals.zero) = Totals.zero := by
  induction rest with
  | nil => rfl
  | cons r rs ih =>
    simp only [List.map_cons, List.foldr_cons]
    have hs : ¬(s = r.1) := by
      intro e
      exact h (by simp [e])
    rw [if_neg hs, Totals.zero_add']
    exact ih (fun hmem => h (by simp [hmem]))

theorem foldr_gather (day : List (String × Totals)) (s : String)
    (h : (day.map Prod.fst).Nodup) :
    ((day.map (fun p => if s = p.1 then p.2 else Totals.zero)).foldr
      Totals.add Totals.zero) = dictGet Totals.zero day s := by
  induction day with
  | nil => rfl
  | cons q rest ih =>
    have h' : (q.1 :: rest.map Prod.fst).Nodup := by simpa using h
    simp only [List.map_cons, List.foldr_cons]
    by_cases hs : s = q.1
    · rw [if_pos hs]
      have hq : q.1 ∉ rest.map Prod.fst := (List.nodup_cons.mp h').1
      rw [foldr_gather_absent rest s (hs ▸ hq), Totals.add_zero']
      unfold dictGet
      have hfind : List.find? (fun r => r.1 == s) (q :: rest) = some q :=
        List.find?_cons_of_pos _ (by simp [hs])
      rw [hfind]
      rfl
    · rw [if_neg hs, Totals.zero_add']
      unfold dictGet
      have hfind : List.find? (fun r => r.1 == s) (q :: rest) =
          List.find? (fun r => r.1 == s) rest :=
        List.find?_cons_of_neg _ (by simp; exact fun e => hs e.symm)
      rw [hfind]
      exact ih (List.nodup_cons.mp h').2

theorem dictGet_addDayTotals (acc day : List (String × Totals)) (s : String)
    (h : (day.map Prod.fst).Nodup) :
    dictGet Totals.zero (addDayTotals acc day) s =
      (dictGet Totals.zero acc s).add (dictGet Totals.zero day s) := by
  unfold addDayTotals
  have hstep : ∀ (a : List (String × Totals)) (p : String × Totals),
      dictGet Totals.zero (dictUpd Totals.zero Totals.add a p.1 p.2) s =
        (dictGet Totals.zero a s).add (if s = p.1 then p.2 else Totals.zero) := by
    intro a p
    rw [dictGet_upd]
    by_cases hs : s = p.1 <;> simp [hs, Totals.add_zero']
  have hfold := foldl_measure_totals (fun a => dictGet Totals.zero a s)
      (fun a p => dictUpd Totals.zero Totals.add a p.1 p.2)
      (fun p => if s = p.1 then p.2 else Totals.zero) hstep day acc
  rw [hfold, foldr_gather day s h]

/-! ### Shopping accumulator: quantities, keys, rows -/

theorem sum_filter_eq (l : List RecipePortion) (j : Nat) :
    ((l.filter (fun p => p.ingredient_id == j)).map (·.quantity)).sum
      = (l.map (fun p => if p.ingredient_id = j then p.quantity else 0)).sum := by
  induction l with
  | nil => rfl
  | cons x xs ih =>
    by_cases hx : (x.ingredient_id == j) = true
    · have hx' : x.ingredient_id = j := by simpa using hx
      simp [List.filter_cons, hx, hx', ih]
    · have hx' : ¬(x.ingredient_id = j) := by simpa using hx
      simp [List.filter_cons, hx, hx', ih]

theorem dictGet_portions_fold (l : List RecipePortion) (acc : List (Nat × ℚ))
    (j : Nat) :
    dictGet (0:ℚ) (l.foldl (fun a portion =>
        dictUpd (0:ℚ) (· + ·) a portion.ingredient_id portion.quantity) acc) j
      = dictGet (0:ℚ) acc j
        + ((l.filter (fun p => p.ingredient_id == j)).map (·.quantity)).sum := by
  rw [sum_filter_eq]
  refine foldl_measure_sum (fun a => dictGet (0:ℚ) a j) _
    (fun p => if p.ingredient_id = j then p.quantity else 0) ?_ l acc
  intro a p
  simp only [dictGet_upd]
  by_cases hj : j = p.ingredient_id
  · rw [if_pos hj, if_pos hj.symm]
  · rw [if_neg hj, if_neg (fun h => hj h.symm), add_zero]

theorem dictGet_shoppingAccMeal (db : DB) (batch : String) (d : Nat)
    (acc : List (Nat × ℚ)) (meal : WeekPlan) (j : Nat) :
    dictGet (0:ℚ) (shoppingAccMeal db batch d acc meal) j =
      dictGet (0:ℚ) acc j + mealQty db batch d meal j := by
  unfold shoppingAccMeal mealQty
  cases meal.recipe_id with
  | none => simp
  | some rid =>
    by_cases hr : (rid == 0) = true
    · simp [hr]
    · simp only [if_neg hr]
      by_cases h1 : (batch == "wed" && !is_wed_batch d meal.meal_type) = true
      · simp [h1]
      · simp only [if_neg h1]
        by_cases h2 : (!(batch == "wed") && is_wed_batch d meal.meal_type) = true
        · simp [h2]
        · simp only [if_neg h2]
          exact dictGet_portions_fold _ acc j

theorem dictGet_shoppingAcc (db : DB) (ws : Nat) (batch : String) (j : Nat) :
    dictGet (0:ℚ) (shoppingAcc db ws batch) j = accQtySpec db ws batch j := by
  unfold shoppingAcc accQtySpec
  have hday : ∀ (acc : List (Nat × ℚ)) (i : Nat),
      dictGet (0:ℚ) ((mealsOn db (ws + i)).foldl
        (shoppingAccMeal db batch (ws + i)) acc) j
        = dictGet (0:ℚ) acc j + ((mealsOn db (ws + i)).map
            (fun meal => mealQty db batch (ws + i) meal j)).sum :=
    fun acc i => foldl_measure_sum (fun a => dictGet (0:ℚ) a j) _ _
      (fun a m => dictGet_shoppingAccMeal db batch (ws + i) a m j) _ acc
  have hmain := foldl_measure_sum (fun a => dictGet (0:ℚ) a j)
      (fun acc i => (mealsOn db (ws + i)).foldl
        (shoppingAccMeal db batch (ws + i)) acc)
      (fun i => ((mealsOn db (ws + i)).map
        (fun meal => mealQty db batch (ws + i) meal j)).sum)
      hday (List.range 7) []
  simpa [dictGet] using hmain

theorem nodup_keys_shoppingAccMeal (db : DB) (batch : String) (d : Nat)
    (acc : List (Nat × ℚ)) (meal : WeekPlan)
    (h : (acc.map Prod.fst).Nodup) :
    ((shoppingAccMeal db batch d acc meal).map Prod.fst).Nodup := by
  unfold shoppingAccMeal
  cases meal.recipe_id with
  | none => exact h
  | some rid =>
    by_cases hr : (rid == 0) = true
    · simp only [if_pos hr]; exact h
    · simp only [if_neg hr]
      by_cases h1 : (batch == "wed" && !is_wed_batch d meal.meal_type) = true
      · simp only [if_pos h1]; exact h
      · simp only [if_neg h1]
        by_cases h2 : (!(batch == "wed") && is_wed_batch d meal.meal_type) = true
        · simp only [if_pos h2]; exact h
        · simp only [if_neg h2]
          refine foldl_preserve (fun a => (a.map Prod.fst).Nodup) _ ?_ _ acc h
          intro a x ha
          exact nodup_keys_upd _ _ a x.ingredient_id x.quantity ha

theorem nodup_keys_shoppingAcc (db : DB) (ws : Nat) (batch : String) :
    ((shoppingAcc db ws batch).map Prod.fst).Nodup := by
  unfold shoppingAcc
  refine foldl_preserve (fun a : List (Nat × ℚ) => (a.map Prod.fst).Nodup) _ ?_ _ _
    (by simp)
  intro a i ha
  refine foldl_preserve (fun a : List (Nat × ℚ) => (a.map Prod.fst).Nodup) _ ?_ _ a ha
  intro a' m ha'
  exact nodup_keys_shoppingAccMeal db batch (ws + i) a' m ha'

theorem mem_keys_portions_fold (l : List RecipePortion) (acc : List (Nat × ℚ))
    (j : Nat) :
    j ∈ ((l.foldl (fun a portion =>
        dictUpd (0:ℚ) (· + ·) a portion.ingredient_id portion.quantity) acc).map
        Prod.fst)
      ↔ j ∈ acc.map Prod.fst ∨ ∃ p ∈ l, p.ingredient_id = j := by
  refine foldl_mem_iff (fun a : List (Nat × ℚ) => j ∈ a.map Prod.fst) _
    (fun p => p.ingredient_id = j) ?_ l acc
  intro s x
  simp only [mem_keys_upd]
  constructor
  · rintro (hm | h)
    · exact Or.inl hm
    · exact Or.inr h.symm
  · rintro (hm | h)
    · exact Or.inl hm
    · exact Or.inr h.symm

theorem mem_keys_shoppingAccMeal (db : DB) (batch : String) (d : Nat)
    (acc : List (Nat × ℚ)) (meal : WeekPlan) (j : Nat) :
    j ∈ (shoppingAccMeal db batch d acc meal).map Prod.fst ↔
      j ∈ acc.map Prod.fst ∨ mealTouches db batch d meal j = true := by
  unfold shoppingAccMeal mealTouches
  cases meal.recipe_id with
  | none => simp
  | some rid =>
    by_cases hr : (rid == 0) = true
    · simp [hr]
    · simp only [if_neg hr]
      by_cases h1 : (batch == "wed" && !is_wed_batch d meal.meal_type) = true
      · simp [h1]
      · simp only [if_neg h1]
        by_cases h2 : (!(batch == "wed") && is_wed_batch d meal.meal_type) = true
        · simp [h2]
        · simp only [if_neg h2]
          rw [mem_keys_portions_fold]
          simp [List.any_eq_true]

theorem mem_keys_shoppingAcc (db : DB) (ws : Nat) (batch : String) (j : Nat) :
    j ∈ (shoppingAcc db ws batch).map Prod.fst ↔
      touches db ws batch j = true := by
  unfold shoppingAcc touches
  have hday : ∀ (acc : List (Nat × ℚ)) (i : Nat),
      j ∈ ((mealsOn db (ws + i)).foldl
        (shoppingAccMeal db batch (ws + i)) acc).map Prod.fst
        ↔ j ∈ acc.map Prod.fst ∨ ∃ m ∈ mealsOn db (ws + i),
            mealTouches db batch (ws + i) m j = true :=
    fun acc i => foldl_mem_iff (fun a => j ∈ a.map Prod.fst) _
      (fun m => mealTouches db batch (ws + i) m j = true)
      (fun s x => mem_keys_shoppingAccMeal db batch (ws + i) s x j) _ acc
  have hmain := foldl_mem_iff (fun a => j ∈ a.map Prod.fst)
      (fun acc i => (mealsOn db (ws + i)).foldl
        (shoppingAccMeal db batch (ws + i)) acc)
      (fun i => ∃ m ∈ mealsOn db (ws + i),
        mealTouches db batch (ws + i) m j = true)
      hday (List.range 7) []
  rw [hmain]
  simp [List.any_eq_true]

theorem shoppingRows_eq (db : DB) (ws : Nat) (batch : String) :
    shoppingRows db ws batch =
      ((shoppingAcc db ws batch).map Prod.fst).filterMap
        (fun iid => (ingredientById db iid).map
          (fun ing => mkRow ing (accQtySpec db ws batch iid))) := by
  unfold shoppingRows
  rw [List.filterMap_map]
  refine List.filterMap_congr ?_
  intro p hp
  have hq : dictGet (0:ℚ) (shoppingAcc db ws batch) p.1 = p.2 :=
    dictGet_of_mem (0:ℚ) _ (nodup_keys_shoppingAcc db ws batch) p hp
  have : accQtySpec db ws batch p.1 = p.2 := by
    rw [← dictGet_shoppingAcc db ws batch p.1]
    exact hq
  simp [Function.comp, this]

/-! ### The string order used by the final sort -/

theorem codeLe_total : ∀ a b, (codeLe a b || codeLe b a) = true
  | [], b => by simp [codeLe]
  | a :: as, [] => by simp [codeLe]
  | x :: as, y :: bs => by
    simp only [codeLe]
    by_cases hxy : x < y
    · simp [hxy]
    · by_cases hyx : y < x
      · simp [hxy, hyx]
      · simpa [hxy, hyx] using codeLe_total as bs

theorem codeLe_trans : ∀ a b c, codeLe a b = true → codeLe b c = true →
    codeLe a c = true
  | [], _, _, _, _ => rfl
  | x :: as, [], c, h, _ => by simp [codeLe] at h
  | x :: as, y :: bs, [], _, h2 => by simp [codeLe] at h2
  | x :: as, y :: bs, z :: cs, h1, h2 => by
    simp only [codeLe] at h1 h2 ⊢
    by_cases hxy : x < y
    · by_cases hyz : y < z
      · simp [Nat.lt_trans hxy hyz]
      · by_cases hzy : z < y
        · simp [hyz, hzy] at h2
        · have hyz' : y = z := Nat.le_antisymm (Nat.not_lt.mp hzy) (Nat.not_lt.mp hyz)
          simp [hyz' ▸ hxy]
    · by_cases hyx : y < x
      · simp [hxy, hyx] at h1
      · have hxy' : x = y := Nat.le_antisymm (Nat.not_lt.mp hyx) (Nat.not_lt.mp hxy)
        subst hxy'
        rw [if_neg (Nat.lt_irrefl x), if_neg (Nat.lt_irrefl x)] at h1
        by_cases hxz : x < z
        · simp [hxz]
        · by_cases hzx : z < x
          · rw [if_neg hxz, if_pos hzx] at h2
            exact absurd h2 (by simp)
          · rw [if_neg hxz, if_neg hzx] at h2 ⊢
            exact codeLe_trans as bs cs h1 h2

theorem strLe_total (a b : String) : (strLe a b || strLe b a) = true :=
  codeLe_total _ _

theorem strLe_trans (a b c : String) (h1 : strLe a b = true)
    (h2 : strLe b c = true) : strLe a c = true :=
  codeLe_trans _ _ _ h1 h2

/-! ### What each traversal skips -/

theorem mealsOn_prependPlan (db : DB) (e : WeekPlan) (d : Nat) :
    mealsOn (prependPlan db e) d =
      if e.date == d then e :: mealsOn db d else mealsOn db d := by
  unfold mealsOn prependPlan
  simp [List.filter_cons]

theorem snackEntriesOn_prependSnackLog (db : DB) (e : SnackLog) (d : Nat) :
    snackEntriesOn (prependSnackLog db e) d =
      if e.date == d && e.consumed then e :: snackEntriesOn db d
      else snackEntriesOn db d := by
  unfold snackEntriesOn prependSnackLog
  simp [List.filter_cons]

theorem portionsFor_prependPortion (db : DB) (p : RecipePortion) (rid pid : Nat) :
    portionsFor (prependPortion db p) rid pid =
      if p.recipe_id == rid && p.person_id == pid then
        p :: portionsFor db rid pid
      else portionsFor db rid pid := by
  unfold portionsFor prependPortion
  simp [List.filter_cons]

theorem addMealTotals_skip_recipe (db : DB) (acc : List (String × Totals))
    (meal : WeekPlan) (h : truthyId meal.recipe_id = false) :
    addMealTotals db acc meal = acc := by
  unfold addMealTotals
  cases hm : meal.recipe_id with
  | none => rfl
  | some rid =>
    rw [hm] at h
    have hz : (rid == 0) = true := by
      simp only [truthyId] at h
      simpa using h
    simp [hz]

theorem mealCostFold_skip_recipe (db : DB) (acc : ℚ) (meal : WeekPlan)
    (h : truthyId meal.recipe_id = false) :
    mealCostFold db acc meal = acc := by
  unfold mealCostFold
  cases hm : meal.recipe_id with
  | none => rfl
  | some rid =>
    rw [hm] at h
    have hz : (rid == 0) = true := by
      simp only [truthyId] at h
      simpa using h
    simp [hz]

theorem shoppingAccMeal_skip_recipe (db : DB) (batch : String) (d : Nat)
    (acc : List (Nat × ℚ)) (meal : WeekPlan)
    (h : truthyId meal.recipe_id = false) :
    shoppingAccMeal db batch d acc meal = acc := by
  unfold shoppingAccMeal
  cases hm : meal.recipe_id with
  | none => rfl
  | some rid =>
    rw [hm] at h
    have hz : (rid == 0) = true := by
      simp only [truthyId] at h
      simpa using h
    simp [hz]

theorem addMealTotals_skip_person (db : DB) (acc : List (String × Totals))
    (meal : WeekPlan) (h : truthyName (personName db meal.person_id) = false) :
    addMealTotals db acc meal = acc := by
  unfold addMealTotals
  cases meal.recipe_id with
  | none => rfl
  | some rid =>
    by_cases hr : (rid == 0) = true
    · simp [hr]
    · simp only [if_neg hr]
      cases hp : personName db meal.person_id with
      | none => rfl
      | some pname =>
        rw [hp] at h
        have hz : (pname == "") = true := by
          simp only [truthyName] at h
          simpa using h
        simp [hz]

theorem addSnackTotals_skip_person (db : DB) (acc : List (String × Totals))
    (e : SnackLog) (h : truthyName (personName db e.person_id) = false) :
    addSnackTotals db acc e = acc := by
  unfold addSnackTotals
  cases hp : personName db e.person_id with
  | none => rfl
  | some pname =>
    rw [hp] at h
    have hz : (pname == "") = true := by
      simp only [truthyName] at h
      simpa using h
    simp [hz]

theorem addSnackTotals_skip_unresolvable (db : DB)
    (acc : List (String × Totals)) (e : SnackLog)
    (h : snackById db e.snack_id = none ∨ ∃ sn, snackById db e.snack_id = some sn
      ∧ ingredientById db sn.ingredient_id = none) :
    addSnackTotals db acc e = acc := by
  unfold addSnackTotals
  cases personName db e.person_id with
  | none => rfl
  | some pname =>
    by_cases hp : (pname == "") = true
    · simp [hp]
    · simp only [if_neg hp]
      rcases h with h | ⟨sn, hsn, hing⟩
      · simp [h]
      · simp [hsn, hing]

theorem snackCostFold_skip_unresolvable (db : DB) (acc : ℚ) (e : SnackLog)
    (h : snackById db e.snack_id = none ∨ ∃ sn, snackById db e.snack_id = some sn
      ∧ ingredientById db sn.ingredient_id = none) :
    snackCostFold db acc e = acc := by
  unfold snackCostFold
  rcases h with h | ⟨sn, hsn, hing⟩
  · simp [h]
  · simp [hsn, hing]

theorem daily_totals_prepend_null_recipe (db : DB) (e : WeekPlan) (d : Nat)
    (h : truthyId e.recipe_id = false) :
    calculate_daily_totals (prependPlan db e) d = calculate_daily_totals db d := by
  unfold calculate_daily_totals
  rw [show addMealTotals (prependPlan db e) = addMealTotals db from rfl,
      show addSnackTotals (prependPlan db e) = addSnackTotals db from rfl,
      show snackEntriesOn (prependPlan db e) d = snackEntriesOn db d from rfl,
      mealsOn_prependPlan]
  by_cases he : (e.date == d) = true
  · rw [if_pos he, List.foldl_cons, addMealTotals_skip_recipe db _ e h]
  · rw [if_neg he]

theorem daily_cost_prepend_null_recipe (db : DB) (e : WeekPlan) (d : Nat)
    (h : truthyId e.recipe_id = false) :
    calculate_daily_cost (prependPlan db e) d = calculate_daily_cost db d := by
  unfold calculate_daily_cost
  rw [show mealCostFold (prependPlan db e) = mealCostFold db from rfl,
      show snackCostFold (prependPlan db e) = snackCostFold db from rfl,
      show snackEntriesOn (prependPlan db e) d = snackEntriesOn db d from rfl,
      mealsOn_prependPlan]
  by_cases he : (e.date == d) = true
  · rw [if_pos he, List.foldl_cons, mealCostFold_skip_recipe db _ e h]
  · rw [if_neg he]

theorem shopping_prepend_null_recipe (db : DB) (ws : Nat) (batch : String)
    (e : WeekPlan) (h : truthyId e.recipe_id = false) :
    generate_shopping_list (prependPlan db e) ws batch =
      generate_shopping_list db ws batch := by
  have hacc : shoppingAcc (prependPlan db e) ws batch = shoppingAcc db ws batch := by
    unfold shoppingAcc
    refine List.foldl_ext _ _ [] ?_
    intro acc i _
    rw [show shoppingAccMeal (prependPlan db e) = shoppingAccMeal db from rfl,
        mealsOn_prependPlan]
    by_cases he : (e.date == ws + i) = true
    · rw [if_pos he, List.foldl_cons,
        shoppingAccMeal_skip_recipe db batch _ _ e h]
    · rw [if_neg he]
  unfold generate_shopping_list shoppingRows
  rw [hacc, show ingredientById (prependPlan db e) = ingredientById db from rfl]

theorem daily_totals_prepend_bad_person (db : DB) (e : WeekPlan) (d : Nat)
    (h : truthyName (personName db e.person_id) = false) :
    calculate_daily_totals (prependPlan db e) d = calculate_daily_totals db d := by
  unfold calculate_daily_totals
  rw [show addMealTotals (prependPlan db e) = addMealTotals db from rfl,
      show addSnackTotals (prependPlan db e) = addSnackTotals db from rfl,
      show snackEntriesOn (prependPlan db e) d = snackEntriesOn db d from rfl,
      mealsOn_prependPlan]
  by_cases he : (e.date == d) = true
  · rw [if_pos he, List.foldl_cons, addMealTotals_skip_person db _ e h]
  · rw [if_neg he]

theorem addMealTotals_prepend_bad_portion (db : DB) (p : RecipePortion)
    (acc : List (String × Totals)) (meal : WeekPlan)
    (h : ingredientById db p.ingredient_id = none) :
    addMealTotals (prependPortion db p) acc meal = addMealTotals db acc meal := by
  unfold addMealTotals
  cases meal.recipe_id with
  | none => rfl
  | some rid =>
    by_cases hr : (rid == 0) = true
    · simp [hr]
    · simp only [if_neg hr]
      rw [show personName (prependPortion db p) = personName db from rfl]
      cases personName db meal.person_id with
      | none => rfl
      | some pname =>
        by_cases hp : (pname == "") = true
        · simp [hp]
        · simp only [if_neg hp]
          rw [show addPortionTotals (prependPortion db p) = addPortionTotals db from rfl,
              portionsFor_prependPortion]
          by_cases hmatch : (p.recipe_id == rid && p.person_id == meal.person_id) = true
          · rw [if_pos hmatch, List.foldl_cons,
              show addPortionTotals db pname acc p = acc from by
                unfold addPortionTotals; rw [h]]
          · rw [if_neg hmatch]

theorem mealCostFold_prepend_bad_portion (db : DB) (p : RecipePortion)
    (acc : ℚ) (meal : WeekPlan)
    (h : ingredientById db p.ingredient_id = none) :
    mealCostFold (prependPortion db p) acc meal = mealCostFold db acc meal := by
  unfold mealCostFold
  cases meal.recipe_id with
  | none => rfl
  | some rid =>
    by_cases hr : (rid == 0) = true
    · simp [hr]
    · simp only [if_neg hr]
      rw [show addPortionCost (prependPortion db p) = addPortionCost db from rfl,
          portionsFor_prependPortion]
      by_cases hmatch : (p.recipe_id == rid && p.person_id == meal.person_id) = true
      · rw [if_pos hmatch, List.foldl_cons,
          show addPortionCost db acc p = acc from by
            unfold addPortionCost; rw [h]]
      · rw [if_neg hmatch]

theorem daily_totals_prepend_bad_portion (db : DB) (p : RecipePortion) (d : Nat)
    (h : ingredientById db p.ingredient_id = none) :
    calculate_daily_totals (prependPortion db p) d = calculate_daily_totals db d := by
  unfold calculate_daily_totals
  rw [show snackEntriesOn (prependPortion db p) d = snackEntriesOn db d from rfl,
      show mealsOn (prependPortion db p) d = mealsOn db d from rfl,
      show addSnackTotals (prependPortion db p) = addSnackTotals db from rfl]
  have hinner : List.foldl (addMealTotals (prependPortion db p)) [] (mealsOn db d)
      = List.foldl (addMealTotals db) [] (mealsOn db d) :=
    List.foldl_ext _ _ []
      (fun acc meal _ => addMealTotals_prepend_bad_portion db p acc meal h)
  rw [hinner]

theorem daily_cost_prepend_bad_portion (db : DB) (p : RecipePortion) (d : Nat)
    (h : ingredientById db p.ingredient_id = none) :
    calculate_daily_cost (prependPortion db p) d = calculate_daily_cost db d := by
  unfold calculate_daily_cost
  rw [show snackEntriesOn (prependPortion db p) d = snackEntriesOn db d from rfl,
      show mealsOn (prependPortion db p) d = mealsOn db d from rfl,
      show snackCostFold (prependPortion db p) = snackCostFold db from rfl]
  have hinner : List.foldl (mealCostFold (prependPortion db p)) 0 (mealsOn db d)
      = List.foldl (mealCostFold db) 0 (mealsOn db d) :=
    List.foldl_ext _ _ 0
      (fun acc meal _ => mealCostFold_prepend_bad_portion db p acc meal h)
  rw [hinner]

theorem daily_totals_prepend_bad_snack (db : DB) (e : SnackLog) (d : Nat)
    (h : snackById db e.snack_id = none ∨ ∃ sn, snackById db e.snack_id = some sn
      ∧ ingredientById db sn.ingredient_id = none) :
    calculate_daily_totals (prependSnackLog db e) d = calculate_daily_totals db d := by
  unfold calculate_daily_totals
  rw [show mealsOn (prependSnackLog db e) d = mealsOn db d from rfl,
      show addMealTotals (prependSnackLog db e) = addMealTotals db from rfl,
      show addSnackTotals (prependSnackLog db e) = addSnackTotals db from rfl,
      snackEntriesOn_prependSnackLog]
  show List.foldl (addSnackTotals db)
      (List.foldl (addMealTotals db) [] (mealsOn db d))
      (if e.date == d && e.consumed then e :: snackEntriesOn db d
        else snackEntriesOn db d)
    = List.foldl (addSnackTotals db)
      (List.foldl (addMealTotals db) [] (mealsOn db d)) (snackEntriesOn db d)
  by_cases he : (e.date == d && e.consumed) = true
  · rw [if_pos he, List.foldl_cons, addSnackTotals_skip_unresolvable db _ e h]
  · rw [if_neg he]

theorem daily_cost_prepend_bad_snack (db : DB) (e : SnackLog) (d : Nat)
    (h : snackById db e.snack_id = none ∨ ∃ sn, snackById db e.snack_id = some sn
      ∧ ingredientById db sn.ingredient_id = none) :
    calculate_daily_cost (prependSnackLog db e) d = calculate_daily_cost db d := by
  unfold calculate_daily_cost
  rw [show mealsOn (prependSnackLog db e) d = mealsOn db d from rfl,
      show mealCostFold (prependSnackLog db e) = mealCostFold db from rfl,
      show snackCostFold (prependSnackLog db e) = snackCostFold db from rfl,
      snackEntriesOn_prependSnackLog]
  show pyRound2 (List.foldl (snackCostFold db)
      (List.foldl (mealCostFold db) 0 (mealsOn db d))
      (if e.date == d && e.consumed then e :: snackEntriesOn db d
        else snackEntriesOn db d))
    = pyRound2 (List.foldl (snackCostFold db)
      (List.foldl (mealCostFold db) 0 (mealsOn db d)) (snackEntriesOn db d))
  by_cases he : (e.date == d && e.consumed) = true
  · rw [if_pos he, List.foldl_cons, snackCostFold_skip_unresolvable db _ e h]
  · rw [if_neg he]

/-! ### Shopping row shape -/

theorem mkRow_ingredient (ing : Ingredient) (q : ℚ) :
    (mkRow ing q).ingredient = ing.name := by
  unfold mkRow
  by_cases hc : (ing.unit == "g" && decide (q ≥ 1000)) = true <;> simp [hc]

theorem mkRow_cost (ing : Ingredient) (q : ℚ) :
    (mkRow ing q).cost = pyRound2 (ing.cost_per_unit * q) := by
  unfold mkRow
  by_cases hc : (ing.unit == "g" && decide (q ≥ 1000)) = true <;> simp [hc]

theorem mkRow_promo (ing : Ingredient) (q : ℚ) (h : ing.unit = "g" ∧ 1000 ≤ q) :
    (mkRow ing q).unit = "kg" ∧ (mkRow ing q).quantity = pyRound2 (q / 1000) := by
  unfold mkRow
  have hc : (ing.unit == "g" && decide (q ≥ 1000)) = true := by
    simp [h.1, ge_iff_le, h.2]
  simp [hc]

theorem mkRow_no_promo (ing : Ingredient) (q : ℚ)
    (h : ¬(ing.unit = "g" ∧ 1000 ≤ q)) :
    (mkRow ing q).unit = ing.unit ∧ (mkRow ing q).quantity = pyRound2 q := by
  unfold mkRow
  have hc : ¬((ing.unit == "g" && decide (q ≥ 1000)) = true) := by
    simp only [Bool.and_eq_true, beq_iff_eq, decide_eq_true_eq, ge_iff_le]
    exact fun hh => h hh
  simp [hc]

theorem shopping_rows_resolvable (db : DB) (ws : Nat) (batch : String)
    (row : ShoppingRow) (h : row ∈ generate_shopping_list db ws batch) :
    ∃ ing, ing ∈ db.ingredients ∧ row.ingredient = ing.name := by
  unfold generate_shopping_list at h
  rw [List.mem_mergeSort] at h
  unfold shoppingRows at h
  rcases List.mem_filterMap.mp h with ⟨p, hp, hopt⟩
  cases hing : ingredientById db p.1 with
  | none => rw [hing] at hopt; simp at hopt
  | some ing =>
    rw [hing] at hopt
    have hrow : mkRow ing p.2 = row := by simpa using hopt
    refine ⟨ing, List.mem_of_find?_eq_some hing, ?_⟩
    rw [← hrow, mkRow_ingredient]

/-! ### Example snapshots used by witnesses and counterexamples -/

/-- A small snapshot with one person, one recipe, one 1500 g portion on a
Thursday, and one consumed snack the same day. -/
def dbA : DB :=
  ⟨[⟨1, "A"⟩], [⟨1, "Rice", "g", 2, 10, 1, 2, 3⟩], [⟨1, "R1", "dinner"⟩],
   [⟨1, 1, 1, 1500⟩], [⟨3, 1, "dinner", some 1⟩], [⟨1, 1, 1⟩],
   [⟨3, 1, 1, true⟩]⟩

/-- A snapshot whose only qualifying portion has quantity 0. -/
def dbZero : DB :=
  ⟨[], [⟨1, "X", "item", 2, 0, 0, 0, 0⟩], [], [⟨1, 1, 1, 0⟩],
   [⟨3, 1, "lunch", some 1⟩], [], []⟩

/-- A snapshot whose week-plan entry references person 1, who does not
exist, while a portion for (recipe 1, person 1) does exist. -/
def dbC3x : DB :=
  ⟨[], [⟨5, "X", "g", 3, 1, 1, 1, 1⟩], [], [⟨1, 5, 1, 2⟩],
   [⟨0, 1, "dinner", some 1⟩], [], []⟩

/-- Like `dbC3x` but with the week-plan entry removed. -/
def dbC3e : DB :=
  ⟨[], [⟨5, "X", "g", 3, 1, 1, 1, 1⟩], [], [⟨1, 5, 1, 2⟩], [], [], []⟩

/-- A snapshot whose week-plan entry references recipe 1, which has no row
in the recipes table, while an orphan portion for recipe 1 exists. -/
def dbC8x : DB :=
  ⟨[⟨1, "A"⟩], [⟨7, "X", "g", 3, 10, 1, 1, 1⟩], [], [⟨1, 7, 1, 2⟩],
   [⟨0, 1, "dinner", some 1⟩], [], []⟩

/-! ### The claims -/

/-- Claim C1: for every date and every meal type in breakfast/lunch/dinner,
`is_wed_batch` returns true exactly on the Wednesday-window slots
Wed-dinner, Thu-(all three), Fri-(all three), Sat-(all three),
Sun-breakfast and Sun-lunch (weekday 0 = Monday, so Wed = 2, Sun = 6).
Since `generate_shopping_list` selects the Sunday batch as the exact
complement of this predicate, every one of the 21 weekly slots falls in
exactly one window, with the boundary slots Wed-dinner and Sun-lunch in
the Wednesday window and Sun-dinner and Wed-lunch in the Sunday window. -/
theorem c1_wed_batch_slots (d : Nat) (mt : String)
    (hmt : mt = "breakfast" ∨ mt = "lunch" ∨ mt = "dinner") :
    is_wed_batch d mt = true ↔
      ((d % 7 = 2 ∧ mt = "dinner") ∨ d % 7 = 3 ∨ d % 7 = 4 ∨ d % 7 = 5 ∨
        (d % 7 = 6 ∧ (mt = "breakfast" ∨ mt = "lunch"))) := by
  have hcases : d % 7 = 0 ∨ d % 7 = 1 ∨ d % 7 = 2 ∨ d % 7 = 3 ∨ d % 7 = 4 ∨
      d % 7 = 5 ∨ d % 7 = 6 := by omega
  rcases hmt with rfl | rfl | rfl <;>
    rcases hcases with h | h | h | h | h | h | h <;>
      simp only [is_wed_batch, get_day_name, weekday, h] <;> decide

/-- Witness for C1 at a concrete slot: day 2 is a Wednesday and
Wednesday-dinner classifies into the Wednesday window. -/
theorem c1_wed_batch_slots_witness : is_wed_batch 2 "dinner" = true :=
  (c1_wed_batch_slots 2 "dinner" (Or.inr (Or.inr rfl))).mpr (Or.inl (by decide))

/-- Claim C10: for every meal-type string whatsoever, `is_wed_batch` is
true on Thursday/Friday/Saturday and false on Monday/Tuesday; on
Wednesday it is true exactly for the string "dinner" and on Sunday
exactly for "breakfast" or "lunch", so an unrecognized meal type on
Wednesday or Sunday falls into the Sunday window. -/
theorem c10_meal_type_fallthrough (d : Nat) (mt : String) :
    ((d % 7 = 3 ∨ d % 7 = 4 ∨ d % 7 = 5) → is_wed_batch d mt = true) ∧
    ((d % 7 = 0 ∨ d % 7 = 1) → is_wed_batch d mt = false) ∧
    (d % 7 = 2 → (is_wed_batch d mt = true ↔ mt = "dinner")) ∧
    (d % 7 = 6 → (is_wed_batch d mt = true ↔
      (mt = "breakfast" ∨ mt = "lunch"))) := by
  refine ⟨?_, ?_, ?_, ?_⟩
  · rintro (h | h | h) <;> simp [is_wed_batch, get_day_name, weekday, h]
  · rintro (h | h) <;> simp [is_wed_batch, get_day_name, weekday, h]
  · intro h
    simp only [is_wed_batch, get_day_name, weekday, h]
    by_cases hm : mt = "dinner" <;> simp [hm]
  · intro h
    simp only [is_wed_batch, get_day_name, weekday, h]
    by_cases h1 : mt = "breakfast" <;> by_cases h2 : mt = "lunch" <;>
      simp [h1, h2]

/-- Witness for C10 at concrete inputs: the unrecognized meal type
"snack" is in the Wednesday window on a Thursday, and the empty meal type
is not on a Sunday. -/
theorem c10_meal_type_fallthrough_witness :
    is_wed_batch 3 "snack" = true ∧ is_wed_batch 6 "" = false := by
  constructor
  · exact (c10_meal_type_fallthrough 3 "snack").1 (Or.inl rfl)
  · have h := (c10_meal_type_fallthrough 6 "").2.2.2 rfl
    cases hb : is_wed_batch 6 ""
    · rfl
    · exact absurd (h.mp hb) (by decide)

/-- Claim C9: every batch argument other than the exact string "wed"
selects the Sunday window, i.e. produces exactly the list that the
argument "sun" produces; the argument is never validated. -/
theorem c9_batch_fallback (db : DB) (ws : Nat) (batch : String)
    (h : batch ≠ "wed") :
    generate_shopping_list db ws batch = generate_shopping_list db ws "sun" := by
  have hb : (batch == "wed") = false := by simpa using h
  have hfun : shoppingAccMeal db batch = shoppingAccMeal db "sun" := by
    funext d acc meal
    unfold shoppingAccMeal
    rw [hb, show (("sun" : String) == "wed") = false from rfl]
  unfold generate_shopping_list shoppingRows shoppingAcc
  rw [hfun]

/-- Witness for C9 at a concrete input: the misspelled batch "WED" yields
the Sunday list. -/
theorem c9_batch_fallback_witness :
    generate_shopping_list dbA 0 "WED" = generate_shopping_list dbA 0 "sun" :=
  c9_batch_fallback dbA 0 "WED" (by decide)

/-- Claim C4: the daily cost is the rounding (two decimals, half-to-even)
of the plain unrounded sum `rawDailyCost` — no rounding occurs inside the
accumulation — and the weekly cost rounds the sum of the seven
already-rounded daily costs once more. -/
theorem c4_rounding_policy : ∀ (db : DB) (d ws : Nat),
    calculate_daily_cost db d = pyRound2 (rawDailyCost db d) ∧
    calculate_weekly_cost db ws =
      pyRound2 (((List.range 7).map
        (fun i => calculate_daily_cost db (ws + i))).sum) :=
  fun db d ws => ⟨calculate_daily_cost_eq db d, calculate_weekly_cost_eq db ws⟩

/-- Claim C5: for every person key, the weekly totals equal the
element-wise (per nutrient) sum of the seven daily totals for
`week_start + 0 .. week_start + 6`; a person absent from some days
contributes `Totals.zero` on those days and still accumulates correctly
from the days on which they appear. -/
theorem c5_weekly_additivity : ∀ (db : DB) (ws : Nat) (s : String),
    dictGet Totals.zero (calculate_weekly_totals db ws) s =
      ((List.range 7).map
        (fun i => dictGet Totals.zero (calculate_daily_totals db (ws + i)) s)).foldr
        Totals.add Totals.zero := by
  intro db ws s
  unfold calculate_weekly_totals
  have hmain := foldl_measure_totals (fun a => dictGet Totals.zero a s)
      (fun acc i => addDayTotals acc (calculate_daily_totals db (ws + i)))
      (fun i => dictGet Totals.zero (calculate_daily_totals db (ws + i)) s)
      (fun a i => dictGet_addDayTotals a _ s (nodup_keys_daily_totals db (ws + i)))
      (List.range 7) []
  rw [hmain,
    show dictGet Totals.zero ([] : List (String × Totals)) s = Totals.zero from rfl,
    Totals.zero_add']

unseal Rat.mul Rat.add Rat.inv Rat.sub in
/-- Counterexample to C3 as stated: in `dbC3x` the week-plan entry's
person is unresolvable, so the totals traversal skips it entirely (the
daily totals are empty), yet `calculate_daily_cost` — which performs no
person lookup — still charges its portions: the cost is 6, while with the
entry removed it is 0. The traversals are not identical. -/
theorem c3_counterexample :
    calculate_daily_totals dbC3x 0 = [] ∧
    calculate_daily_cost dbC3x 0 = 6 ∧
    calculate_daily_cost dbC3e 0 = 0 :=
  ⟨by decide, by decide, by decide⟩

/-- Claim C3 (amended): `calculate_daily_cost` traverses the same
week-plan entries and consumed snack-log entries as the totals traversal
and sums `cost_per_unit × quantity` across all persons into one scalar,
but — unlike the totals traversal — it never resolves the person
reference. Whenever every person reference on the date does resolve (to a
truthy name), the cost equals the rounding of the totals-style traversal
sum `dailyCostTotalsStyle`. -/
theorem c3_cost_traversal (db : DB) (d : Nat)
    (hmeal : ∀ meal ∈ mealsOn db d,
      truthyName (personName db meal.person_id) = true)
    (hsnack : ∀ e ∈ snackEntriesOn db d,
      truthyName (personName db e.person_id) = true) :
    calculate_daily_cost db d = pyRound2 (dailyCostTotalsStyle db d) := by
  rw [calculate_daily_cost_eq]
  unfold rawDailyCost dailyCostTotalsStyle
  rw [List.map_congr_left (fun m hm => mealCost_eq_checked db m (hmeal m hm)),
      List.map_congr_left (fun e he => snackCost_eq_checked db e (hsnack e he))]

/-- Witness for C3 (amended) on a concrete snapshot whose person
references all resolve. -/
theorem c3_cost_traversal_witness :
    calculate_daily_cost dbA 3 = pyRound2 (dailyCostTotalsStyle dbA 3) :=
  c3_cost_traversal dbA 3 (by decide) (by decide)

unseal Rat.mul Rat.add Rat.inv Rat.sub List.merge List.mergeSort in
/-- Counterexample to C2 as stated: in `dbZero` the only qualifying
portion has quantity 0, so ingredient X accumulates to exactly zero, yet
the shopping list still emits a row for it with quantity 0 instead of
omitting it. -/
theorem c2_counterexample :
    accQtySpec dbZero 0 "wed" 1 = 0 ∧
    generate_shopping_list dbZero 0 "wed" = [⟨"X", 0, "item", 0⟩] :=
  ⟨by decide, by decide⟩

/-- Claim C2 (amended): the shopping list is sorted ascending by
ingredient name under plain code-point string comparison; but an
ingredient referenced by any qualifying portion produces a row even when
its accumulated quantity is zero — zero rows are emitted, not omitted. -/
theorem c2_sorted_zero_rows : ∀ (db : DB) (ws : Nat) (batch : String),
    (generate_shopping_list db ws batch).Pairwise
      (fun a b => strLe a.ingredient b.ingredient = true)
    ∧ (∀ iid ing, ingredientById db iid = some ing →
        touches db ws batch iid = true →
        mkRow ing (accQtySpec db ws batch iid) ∈
          generate_shopping_list db ws batch) := by
  intro db ws batch
  constructor
  · unfold generate_shopping_list
    exact List.sorted_mergeSort
      (fun a b c h1 h2 => strLe_trans a.ingredient b.ingredient c.ingredient h1 h2)
      (fun a b => strLe_total a.ingredient b.ingredient)
      (shoppingRows db ws batch)
  · intro iid ing hing htouch
    unfold generate_shopping_list
    rw [List.mem_mergeSort, shoppingRows_eq]
    refine List.mem_filterMap.mpr ⟨iid, ?_, ?_⟩
    · exact (mem_keys_shoppingAcc db ws batch iid).mpr htouch
    · rw [hing]
      rfl

unseal Rat.mul Rat.add Rat.inv Rat.sub List.merge List.mergeSort in
/-- Witness for C2 (amended) at a concrete input: the zero-quantity
ingredient of `dbZero` is emitted as a row. -/
theorem c2_sorted_zero_rows_witness :
    mkRow ⟨1, "X", "item", 2, 0, 0, 0, 0⟩ (accQtySpec dbZero 0 "wed" 1) ∈
      generate_shopping_list dbZero 0 "wed" :=
  (c2_sorted_zero_rows dbZero 0 "wed").2 1 ⟨1, "X", "item", 2, 0, 0, 0, 0⟩
    (by decide) (by decide)

/-- Claim C6: the shopping list keeps one accumulator entry per
ingredient id (the key list has no duplicates), emits exactly one row per
resolvable accumulated ingredient whose quantity is `accQtySpec` — the
sum of portion quantities over all 7 days, all qualifying meals and all
people — and prices each row at `cost_per_unit × total quantity` (inside
`mkRow`, rounded to 2 decimals); the final list is a permutation
(re-ordering) of these rows. -/
theorem c6_per_ingredient_consolidation : ∀ (db : DB) (ws : Nat) (batch : String),
    shoppingRows db ws batch =
      ((shoppingAcc db ws batch).map Prod.fst).filterMap
        (fun iid => (ingredientById db iid).map
          (fun ing => mkRow ing (accQtySpec db ws batch iid)))
    ∧ ((shoppingAcc db ws batch).map Prod.fst).Nodup
    ∧ (generate_shopping_list db ws batch).Perm (shoppingRows db ws batch)
    ∧ ∀ (ing : Ingredient) (q : ℚ),
        (mkRow ing q).cost = pyRound2 (ing.cost_per_unit * q) :=
  fun db ws batch => ⟨shoppingRows_eq db ws batch,
    nodup_keys_shoppingAcc db ws batch,
    List.mergeSort_perm _ _,
    fun ing q => mkRow_cost ing q⟩

/-- Claim C7: every row of the shopping list comes from a resolvable
ingredient with accumulated quantity `accQtySpec`; if that ingredient's
base unit is "g" and the total is at least 1000 the row shows the total
divided by 1000 with unit "kg", otherwise the native unit and quantity;
displayed quantity and cost are rounded to two decimals. -/
theorem c7_display_promotion (db : DB) (ws : Nat) (batch : String)
    (row : ShoppingRow) (hrow : row ∈ generate_shopping_list db ws batch) :
    ∃ iid ing, ingredientById db iid = some ing ∧
      row = mkRow ing (accQtySpec db ws batch iid) ∧
      row.ingredient = ing.name ∧
      row.cost = pyRound2 (ing.cost_per_unit * accQtySpec db ws batch iid) ∧
      ((ing.unit = "g" ∧ 1000 ≤ accQtySpec db ws batch iid) →
        row.unit = "kg" ∧
        row.quantity = pyRound2 (accQtySpec db ws batch iid / 1000)) ∧
      (¬(ing.unit = "g" ∧ 1000 ≤ accQtySpec db ws batch iid) →
        row.unit = ing.unit ∧
        row.quantity = pyRound2 (accQtySpec db ws batch iid)) := by
  unfold generate_shopping_list at hrow
  rw [List.mem_mergeSort, shoppingRows_eq] at hrow
  rcases List.mem_filterMap.mp hrow with ⟨iid, hmem, hopt⟩
  cases hing : ingredientById db iid with
  | none => rw [hing] at hopt; simp at hopt
  | some ing =>
    rw [hing] at hopt
    have hrow' : mkRow ing (accQtySpec db ws batch iid) = row := by
      simpa using hopt
    subst hrow'
    exact ⟨iid, ing, hing, rfl, mkRow_ingredient _ _, mkRow_cost _ _,
      fun h => mkRow_promo _ _ h, fun h => mkRow_no_promo _ _ h⟩

unseal Rat.mul Rat.add Rat.inv Rat.sub List.merge List.mergeSort in
/-- Witness for C7 at a concrete input: 1500 g of Rice is displayed as
1.5 kg at cost 3000. -/
theorem c7_display_promotion_witness :
    (⟨"Rice", 3/2, "kg", 3000⟩ : ShoppingRow) ∈
      generate_shopping_list dbA 0 "wed" ∧
    ∃ iid ing, ingredientById dbA iid = some ing ∧
      (⟨"Rice", 3/2, "kg", 3000⟩ : ShoppingRow) =
        mkRow ing (accQtySpec dbA 0 "wed" iid) ∧
      (⟨"Rice", 3/2, "kg", 3000⟩ : ShoppingRow).ingredient = ing.name ∧
      (⟨"Rice", 3/2, "kg", 3000⟩ : ShoppingRow).cost =
        pyRound2 (ing.cost_per_unit * accQtySpec dbA 0 "wed" iid) ∧
      ((ing.unit = "g" ∧ 1000 ≤ accQtySpec dbA 0 "wed" iid) →
        (⟨"Rice", 3/2, "kg", 3000⟩ : ShoppingRow).unit = "kg" ∧
        (⟨"Rice", 3/2, "kg", 3000⟩ : ShoppingRow).quantity =
          pyRound2 (accQtySpec dbA 0 "wed" iid / 1000)) ∧
      (¬(ing.unit = "g" ∧ 1000 ≤ accQtySpec dbA 0 "wed" iid) →
        (⟨"Rice", 3/2, "kg", 3000⟩ : ShoppingRow).unit = ing.unit ∧
        (⟨"Rice", 3/2, "kg", 3000⟩ : ShoppingRow).quantity =
          pyRound2 (accQtySpec dbA 0 "wed" iid)) :=
  ⟨by decide, c7_display_promotion dbA 0 "wed" ⟨"Rice", 3/2, "kg", 3000⟩ (by decide)⟩

unseal Rat.mul Rat.add Rat.inv Rat.sub in
/-- Counterexample to C8 as stated: in `dbC8x` the week-plan entry
references recipe 1, which does not exist in the recipes table, yet — since
none of the three functions ever queries the recipes table — its orphan
portion still contributes: the daily totals are nonempty and the daily
cost is 6, not zero. -/
theorem c8_counterexample :
    dbC8x.recipes = [] ∧
    calculate_daily_totals dbC8x 0 = [("A", ⟨20, 2, 2, 2⟩)] ∧
    calculate_daily_cost dbC8x 0 = 6 :=
  ⟨rfl, by decide, by decide⟩

/-- Claim C8 (amended): a week-plan entry with a falsy (null or 0) recipe
id is skipped by all three functions; an entry whose person does not
resolve to a truthy name is skipped by the totals traversal (the cost and
shopping traversals never consult the person table); a portion whose
ingredient does not resolve contributes nothing to totals or cost; a
snack-log entry whose snack or snack ingredient does not resolve
contributes nothing to totals or cost; and every emitted shopping row
stems from a resolvable ingredient. Recipe-table resolvability is never
checked (see the counterexample), so it is absent from this list. All
functions are total — no skip raises. -/
theorem c8_skip_policy :
    (∀ (db : DB) (e : WeekPlan) (d : Nat), truthyId e.recipe_id = false →
      calculate_daily_totals (prependPlan db e) d = calculate_daily_totals db d) ∧
    (∀ (db : DB) (e : WeekPlan) (d : Nat), truthyId e.recipe_id = false →
      calculate_daily_cost (prependPlan db e) d = calculate_daily_cost db d) ∧
    (∀ (db : DB) (ws : Nat) (batch : String) (e : WeekPlan),
      truthyId e.recipe_id = false →
      generate_shopping_list (prependPlan db e) ws batch =
        generate_shopping_list db ws batch) ∧
    (∀ (db : DB) (e : WeekPlan) (d : Nat),
      truthyName (personName db e.person_id) = false →
      calculate_daily_totals (prependPlan db e) d = calculate_daily_totals db d) ∧
    (∀ (db : DB) (p : RecipePortion) (d : Nat),
      ingredientById db p.ingredient_id = none →
      calculate_daily_totals (prependPortion db p) d =
        calculate_daily_totals db d ∧
      calculate_daily_cost (prependPortion db p) d = calculate_daily_cost db d) ∧
    (∀ (db : DB) (e : SnackLog) (d : Nat),
      (snackById db e.snack_id = none ∨ ∃ sn, snackById db e.snack_id = some sn
        ∧ ingredientById db sn.ingredient_id = none) →
      calculate_daily_totals (prependSnackLog db e) d =
        calculate_daily_totals db d ∧
      calculate_daily_cost (prependSnackLog db e) d = calculate_daily_cost db d) ∧
    (∀ (db : DB) (ws : Nat) (batch : String) (row : ShoppingRow),
      row ∈ generate_shopping_list db ws batch →
      ∃ ing, ing ∈ db.ingredients ∧ row.ingredient = ing.name) :=
  ⟨fun db e d h => daily_totals_prepend_null_recipe db e d h,
   fun db e d h => daily_cost_prepend_null_recipe db e d h,
   fun db ws batch e h => shopping_prepend_null_recipe db ws batch e h,
   fun db e d h => daily_totals_prepend_bad_person db e d h,
   fun db p d h => ⟨daily_totals_prepend_bad_portion db p d h,
     daily_cost_prepend_bad_portion db p d h⟩,
   fun db e d h => ⟨daily_totals_prepend_bad_snack db e d h,
     daily_cost_prepend_bad_snack db e d h⟩,
   fun db ws batch row h => shopping_rows_resolvable db ws batch row h⟩

/-- Witness for C8 (amended) at concrete inputs: prepending a null-recipe
entry leaves the daily totals unchanged, and prepending a portion whose
ingredient id 99 does not resolve leaves the daily cost unchanged. -/
theorem c8_skip_policy_witness :
    calculate_daily_totals (prependPlan dbA ⟨3, 1, "lunch", none⟩) 3 =
      calculate_daily_totals dbA 3 ∧
    calculate_daily_cost (prependPortion dbA ⟨1, 99, 1, 5⟩) 3 =
      calculate_daily_cost dbA 3 :=
  ⟨c8_skip_policy.1 dbA ⟨3, 1, "lunch", none⟩ 3 (by decide),
   (c8_skip_policy.2.2.2.2.1 dbA ⟨1, 99, 1, 5⟩ 3 (by decide)).2⟩
